import Mathlib

/-!
Verification of the ComShalom RSS mirror pipeline (Cloudflare Worker,
`src/index.ts` and `src/utils/*`), as a shallow embedding in Lean 4.

Modelling conventions:
* JS strings are modelled as Lean `String` / `List Char` (sequences of Unicode
  scalar values; the source strings of interest are BMP text, where JS
  `length` and code-unit indexing agree with the scalar view).
* JS numbers produced by `parseInt` are modelled as `Option Int`
  (`none` = `NaN`); exact rational arithmetic (`ℚ`) models the float
  arithmetic of `calculateSimilarity`, which is exact on the values involved.
* Network and randomness effects (`fetch`, `crypto.randomUUID`, GitHub API
  responses, `Date`) are passed in as explicit oracle values; KV storage is
  explicit state (`String → Option StoredVal`).
* `crypto.subtle.digest('SHA-256', …)` is embedded as a full executable
  SHA-256 (FIPS 180-4) over `Nat` bytes.
-/

/-- 32-bit wrapping addition. -/
def add32 (a b : Nat) : Nat := (a + b) % 4294967296

/-- Right-rotation of a 32-bit word by `n` bits. -/
def rotr32 (n x : Nat) : Nat := (x >>> n) ||| ((x <<< (32 - n)) % 4294967296)

/-- Bitwise complement on the 32-bit domain. -/
def not32 (x : Nat) : Nat := Nat.xor x 4294967295

/-- SHA-256 `Ch` function. -/
def shaCh (x y z : Nat) : Nat := Nat.xor (Nat.land x y) (Nat.land (not32 x) z)

/-- SHA-256 `Maj` function. -/
def shaMaj (x y z : Nat) : Nat :=
  Nat.xor (Nat.xor (Nat.land x y) (Nat.land x z)) (Nat.land y z)

/-- SHA-256 `Σ₀`. -/
def bsig0 (x : Nat) : Nat := Nat.xor (Nat.xor (rotr32 2 x) (rotr32 13 x)) (rotr32 22 x)

/-- SHA-256 `Σ₁`. -/
def bsig1 (x : Nat) : Nat := Nat.xor (Nat.xor (rotr32 6 x) (rotr32 11 x)) (rotr32 25 x)

/-- SHA-256 `σ₀`. -/
def ssig0 (x : Nat) : Nat := Nat.xor (Nat.xor (rotr32 7 x) (rotr32 18 x)) (x >>> 3)

/-- SHA-256 `σ₁`. -/
def ssig1 (x : Nat) : Nat := Nat.xor (Nat.xor (rotr32 17 x) (rotr32 19 x)) (x >>> 10)

/-- The 64 SHA-256 round constants (FIPS 180-4 §4.2.2). -/
def sha256K : List Nat :=
  [1116352408, 1899447441, 3049323471, 3921009573, 961987163,
   1508970993, 2453635748, 2870763221, 3624381080, 310598401,
   607225278, 1426881987, 1925078388, 2162078206, 2614888103,
   3248222580, 3835390401, 4022224774, 264347078, 604807628,
   770255983, 1249150122, 1555081692, 1996064986, 2554220882,
   2821834349, 2952996808, 3210313671, 3336571891, 3584528711,
   113926993, 338241895, 666307205, 773529912, 1294757372,
   1396182291, 1695183700, 1986661051, 2177026350, 2456956037,
   2730485921, 2820302411, 3259730800, 3345764771, 3516065817,
   3600352804, 4094571909, 275423344, 430227734, 506948616,
   659060556, 883997877, 958139571, 1322822218, 1537002063,
   1747873779, 1955562222, 2024104815, 2227730452, 2361852424,
   2428436474, 2756734187, 3204031479, 3329325298]

/-- The eight SHA-256 initial hash values (FIPS 180-4 §5.3.3). -/
def sha256IV : List Nat :=
  [1779033703, 3144134277, 1013904242, 2773480762, 1359893119,
   2600822924, 528734635, 1541459225]

/-- Append one extended word to a partial SHA-256 message schedule. -/
def schedStep (w : List Nat) : List Nat :=
  let n := w.length
  w ++ [add32 (add32 (ssig1 (w.getD (n - 2) 0)) (w.getD (n - 7) 0))
              (add32 (ssig0 (w.getD (n - 15) 0)) (w.getD (n - 16) 0))]

/-- Iterate the schedule extension `fuel` times. -/
def schedExtend : Nat → List Nat → List Nat
  | 0, w => w
  | n + 1, w => schedExtend n (schedStep w)

/-- Big-endian 32-bit words from a list of bytes. -/
def bytesToWords : List Nat → List Nat
  | b0 :: b1 :: b2 :: b3 :: rest =>
      (b0 * 16777216 + b1 * 65536 + b2 * 256 + b3) :: bytesToWords rest
  | _ => []

/-- Working state of the SHA-256 compression loop. -/
structure Sha256State where
  a : Nat
  b : Nat
  c : Nat
  d : Nat
  e : Nat
  f : Nat
  g : Nat
  h : Nat
deriving Repr, DecidableEq

/-- One SHA-256 compression round with round constant `kt` and word `wt`. -/
def shaRound (s : Sha256State) (kw : Nat × Nat) : Sha256State :=
  let t1 := add32 s.h (add32 (bsig1 s.e) (add32 (shaCh s.e s.f s.g) (add32 kw.1 kw.2)))
  let t2 := add32 (bsig0 s.a) (shaMaj s.a s.b s.c)
  { a := add32 t1 t2, b := s.a, c := s.b, d := s.c,
    e := add32 s.d t1, f := s.e, g := s.f, h := s.g }

/-- Compress one 64-byte block into the eight-word chaining value. -/
def sha256Compress (hv : List Nat) (block : List Nat) : List Nat :=
  let w := schedExtend 48 (bytesToWords block)
  let init : Sha256State :=
    { a := hv.getD 0 0, b := hv.getD 1 0, c := hv.getD 2 0, d := hv.getD 3 0,
      e := hv.getD 4 0, f := hv.getD 5 0, g := hv.getD 6 0, h := hv.getD 7 0 }
  let s := (sha256K.zip w).foldl shaRound init
  [add32 (hv.getD 0 0) s.a, add32 (hv.getD 1 0) s.b,
   add32 (hv.getD 2 0) s.c, add32 (hv.getD 3 0) s.d,
   add32 (hv.getD 4 0) s.e, add32 (hv.getD 5 0) s.f,
   add32 (hv.getD 6 0) s.g, add32 (hv.getD 7 0) s.h]

/-- Big-endian 8-byte encoding of a 64-bit value. -/
def be64 (x : Nat) : List Nat :=
  [x / 2 ^ 56 % 256, x / 2 ^ 48 % 256, x / 2 ^ 40 % 256, x / 2 ^ 32 % 256,
   x / 2 ^ 24 % 256, x / 2 ^ 16 % 256, x / 2 ^ 8 % 256, x % 256]

/-- SHA-256 padding: `0x80`, zeros, then the 64-bit big-endian bit length. -/
def sha256Pad (msg : List Nat) : List Nat :=
  let len := msg.length
  let zeros := (64 + 56 - (len + 1) % 64) % 64
  msg ++ [128] ++ List.replicate zeros 0 ++ be64 (len * 8)

/-- Split a byte list into 64-byte blocks (`fuel` bounds the recursion). -/
def toBlocks : Nat → List Nat → List (List Nat)
  | 0, _ => []
  | _, [] => []
  | fuel + 1, l => l.take 64 :: toBlocks fuel (l.drop 64)

/-- SHA-256 digest of a byte list, as 32 output bytes. -/
def sha256 (msg : List Nat) : List Nat :=
  let padded := sha256Pad msg
  let blocks := toBlocks (padded.length / 64 + 1) padded
  let hv := blocks.foldl sha256Compress sha256IV
  hv.flatMap fun word =>
    [word / 16777216 % 256, word / 65536 % 256, word / 256 % 256, word % 256]

/-- UTF-8 encoding of one Unicode scalar value (as `TextEncoder` produces). -/
def utf8Char (c : Char) : List Nat :=
  let n := c.toNat
  if n < 128 then [n]
  else if n < 2048 then [192 + n / 64, 128 + n % 64]
  else if n < 65536 then [224 + n / 4096, 128 + n / 64 % 64, 128 + n % 64]
  else [240 + n / 262144, 128 + n / 4096 % 64, 128 + n / 64 % 64, 128 + n % 64]

/-- UTF-8 byte sequence of a string (as `new TextEncoder().encode(s)`). -/
def utf8Encode (s : String) : List Nat := s.data.flatMap utf8Char

/-- Lower-case hex digit, as produced by JS `Number.prototype.toString(16)`. -/
def hexDigit (n : Nat) : Char :=
  if n < 10 then Char.ofNat (48 + n) else Char.ofNat (87 + n)

/-- Two-digit hex encoding of a byte: `b.toString(16).padStart(2, '0')`. -/
def byteHex (b : Nat) : List Char := [hexDigit (b / 16), hexDigit (b % 16)]

/-- The id derivation performed inline in `processItem` (index.ts 900-909):
SHA-256 of the UTF-8 bytes of the link, hex-encoded, truncated to 32 chars. -/
def processItemId (link : String) : String :=
  String.mk (((sha256 (utf8Encode link)).flatMap byteHex).take 32)

/-- The id derivation performed inline in `checkSpecificUrl`
(index.ts 1189-1198), byte-for-byte the same code as in `processItem`. -/
def checkSpecificUrlId (link : String) : String :=
  String.mk (((sha256 (utf8Encode link)).flatMap byteHex).take 32)

/-- Truthiness of the optional `maxDistance` argument of
`optimizedLevenshtein` (JS: `undefined` and `0` are both falsy). -/
def capTruthy : Option Nat → Bool
  | none => false
  | some d => decide (d ≠ 0)

/-- Inner column loop of `optimizedLevenshtein` (utils/workers.ts): computes
the remaining cells of the current row. `bs` are the remaining chars of
`str2`, `pr` the corresponding cells `prev[j..]` of the previous row, `pjm1`
is `prev[j-1]` and `qjm1` is `curr[j-1]`. Returns `none` when the early-exit
cap fires. -/
def levInner (cap : Option Nat) (c : Char) :
    List Char → List Nat → Nat → Nat → Option (List Nat)
  | [], _, _, _ => some []
  | _ :: _, [], _, _ => some []
  | b :: bs, pj :: pr, pjm1, qjm1 =>
      let qj := if c = b then pjm1
                else min (pj + 1) (min (qjm1 + 1) (pjm1 + 1))
      if capTruthy cap ∧ cap.getD 0 < qj then none
      else
        match levInner cap c bs pr pj qj with
        | none => none
        | some rest => some (qj :: rest)

/-- Outer row loop of `optimizedLevenshtein`: processes the remaining chars
of `str1`, carrying the previous row (`prev`) and the 1-based row index `i`
(the first cell of each new row is `curr[0] = i`). -/
def levLoop (cap : Option Nat) : List Char → List Char → List Nat → Nat → Option (List Nat)
  | [], _, prev, _ => some prev
  | c :: cs, s2, prev, i =>
      match prev with
      | [] => some []
      | p0 :: ptail =>
          match levInner cap c s2 ptail p0 i with
          | none => none
          | some qtail => levLoop cap cs s2 (i :: qtail) (i + 1)

/-- `optimizedLevenshtein` (utils/workers.ts 6-43): two-row dynamic
programming edit distance with an optional distance cap; the cap short
circuits to `maxDistance + 1`. -/
def optimizedLevenshtein (s1 s2 : String) (cap : Option Nat) : Nat :=
  let m := s1.length
  let n := s2.length
  if capTruthy cap ∧ cap.getD 0 < Nat.dist m n then cap.getD 0 + 1
  else
    match levLoop cap s1.data s2.data (List.range (n + 1)) 1 with
    | none => cap.getD 0 + 1
    | some prev => prev.getD n 0

/-- JS `String.prototype.toLowerCase`, restricted to ASCII and Latin-1
letters (the only characters occurring in the configured patterns and
keyword lists; all other characters are left unchanged). -/
def jsToLower (c : Char) : Char :=
  let n := c.toNat
  if 65 ≤ n ∧ n ≤ 90 then Char.ofNat (n + 32)
  else if 192 ≤ n ∧ n ≤ 222 ∧ n ≠ 215 then Char.ofNat (n + 32)
  else c

/-- Lower-casing of a whole string. -/
def jsLower (s : String) : String := s.map jsToLower

/-- `levenshteinDistance` (index.ts 13-16): delegates to
`optimizedLevenshtein` with no cap argument. -/
def levenshteinDistance (s1 s2 : String) : Nat := optimizedLevenshtein s1 s2 none

/-- `calculateSimilarity` (index.ts 18-23). The JS float arithmetic
`1 - distance / maxLen` is exact on the values involved, so it is modelled
in `ℚ`. -/
def calculateSimilarity (s1 s2 : String) : ℚ :=
  let maxLen := max s1.length s2.length
  if maxLen = 0 then 1
  else 1 - (levenshteinDistance (jsLower s1) (jsLower s2) : ℚ) / maxLen

theorem levInner_self (c : Char) :
    ∀ (bs : List Char) (i j0 : Nat), 1 ≤ i →
      (∀ k, (h : k < bs.length) → i = j0 + 1 + k → bs.get ⟨k, h⟩ = c) →
      levInner none c bs ((List.range bs.length).map fun k => Nat.dist (i - 1) (j0 + 1 + k))
        (Nat.dist (i - 1) j0) (Nat.dist i j0)
        = some ((List.range bs.length).map fun k => Nat.dist i (j0 + 1 + k)) := by
  intro bs
  induction bs with
  | nil => intro i j0 _ _; simp [levInner]
  | cons b bs ih =>
      intro i j0 hi hc
      have hrow : (List.range (b :: bs).length).map (fun k => Nat.dist (i - 1) (j0 + 1 + k))
          = Nat.dist (i - 1) (j0 + 1) ::
            (List.range bs.length).map (fun k => Nat.dist (i - 1) (j0 + 1 + 1 + k)) := by
        simp only [List.length_cons, List.range_succ_eq_map, List.map_cons, List.map_map]
        congr 1
        all_goals try (apply List.map_congr_left; intro a _)
        all_goals try simp only [Function.comp_apply, Nat.dist]
        all_goals omega
      have hres : (List.range (b :: bs).length).map (fun k => Nat.dist i (j0 + 1 + k))
          = Nat.dist i (j0 + 1) ::
            (List.range bs.length).map (fun k => Nat.dist i (j0 + 1 + 1 + k)) := by
        simp only [List.length_cons, List.range_succ_eq_map, List.map_cons, List.map_map]
        congr 1
        all_goals try (apply List.map_congr_left; intro a _)
        all_goals try simp only [Function.comp_apply, Nat.dist]
        all_goals omega
      rw [hrow, hres]
      have hq : (if c = b then Nat.dist (i - 1) j0
            else min (Nat.dist (i - 1) (j0 + 1) + 1)
              (min (Nat.dist i j0 + 1) (Nat.dist (i - 1) j0 + 1)))
          = Nat.dist i (j0 + 1) := by
        by_cases hcb : c = b
        · rw [if_pos hcb]
          simp only [Nat.dist]
          omega
        · rw [if_neg hcb]
          have hij : i ≠ j0 + 1 := by
            intro h
            exact hcb ((hc 0 (by simp) (by omega)).symm)
          simp only [Nat.dist]
          omega
      have htail : levInner none c bs
            ((List.range bs.length).map fun k => Nat.dist (i - 1) (j0 + 1 + 1 + k))
            (Nat.dist (i - 1) (j0 + 1)) (Nat.dist i (j0 + 1))
          = some ((List.range bs.length).map fun k => Nat.dist i (j0 + 1 + 1 + k)) := by
        apply ih i (j0 + 1) hi
        intro k h hk
        exact hc (k + 1) (by simpa using h) (by omega)
      simp only [levInner, hq, capTruthy, htail]
      simp

theorem levLoop_self (s : List Char) :
    ∀ (cs : List Char) (i : Nat), 1 ≤ i → i - 1 ≤ s.length → cs = s.drop (i - 1) →
      levLoop none cs s ((List.range (s.length + 1)).map fun j => Nat.dist (i - 1) j) i
        = some ((List.range (s.length + 1)).map fun j => Nat.dist s.length j) := by
  intro cs
  induction cs with
  | nil =>
      intro i hi hlen hdrop
      have : s.length ≤ i - 1 := by
        rw [← List.drop_eq_nil_iff, ← hdrop]
      have heq : i - 1 = s.length := by omega
      rw [levLoop, heq]
  | cons c cs ih =>
      intro i hi hlen hdrop
      have hlt : i - 1 < s.length := by
        by_contra h
        have : s.drop (i - 1) = [] := List.drop_eq_nil_iff.mpr (by omega)
        rw [this] at hdrop
        exact List.noConfusion hdrop
      have hcons : s.drop (i - 1) = s.get ⟨i - 1, hlt⟩ :: s.drop (i - 1 + 1) := by
        simpa using List.drop_eq_getElem_cons hlt
      have hc : s.get ⟨i - 1, hlt⟩ = c := by
        rw [hcons] at hdrop
        exact (List.cons.injEq _ _ _ _ ▸ hdrop).1.symm
      have hcs : cs = s.drop i := by
        rw [hcons] at hdrop
        have h2 := (List.cons.injEq _ _ _ _ ▸ hdrop).2
        rw [h2]
        congr 1
        omega
      have hrow : (List.range (s.length + 1)).map (fun j => Nat.dist (i - 1) j)
          = (i - 1) ::
            (List.range s.length).map (fun k => Nat.dist (i - 1) (0 + 1 + k)) := by
        simp only [List.range_succ_eq_map, List.map_cons, List.map_map]
        congr 1
        all_goals try (apply List.map_congr_left; intro a _)
        all_goals try simp only [Function.comp_apply, Nat.dist]
        all_goals omega
      rw [hrow]
      have hinner := levInner_self c s i 0 hi (by
        intro k h hk
        have hki : k = i - 1 := by omega
        subst hki
        exact hc)
      simp only [Nat.dist_zero_right] at hinner
      simp only [levLoop, hinner]
      have hnext : (i :: (List.range s.length).map fun k => Nat.dist i (0 + 1 + k))
          = (List.range (s.length + 1)).map fun j => Nat.dist (i + 1 - 1) j := by
        simp only [List.range_succ_eq_map, List.map_cons, List.map_map]
        congr 1
        all_goals try (apply List.map_congr_left; intro a _)
        all_goals try simp only [Function.comp_apply, Nat.dist]
        all_goals omega
      rw [hnext]
      exact ih (i + 1) (by omega) (by omega) (by simpa using hcs)

theorem optimizedLevenshtein_self (s : String) : optimizedLevenshtein s s none = 0 := by
  have hinit : (List.range (s.data.length + 1)).map (fun j => Nat.dist (1 - 1) j)
      = List.range (s.data.length + 1) := by
    have h0 : ∀ a ∈ List.range (s.data.length + 1),
        Nat.dist (1 - 1) a = id a := by
      intro a _
      simp [Nat.dist]
    rw [List.map_congr_left h0, List.map_id]
  have hfinal := levLoop_self s.data s.data 1 (le_refl 1) (by simp) (by simp)
  rw [hinit] at hfinal
  unfold optimizedLevenshtein
  rw [if_neg (by simp [capTruthy])]
  rw [show s.length = s.data.length from rfl]
  rw [hfinal]
  show (List.map (fun j => Nat.dist s.data.length j)
      (List.range (s.data.length + 1))).getD s.data.length 0 = 0
  rw [List.getD_eq_getElem _ _ (by simp)]
  simp [Nat.dist_self]

theorem calculateSimilarity_self (s : String) : calculateSimilarity s s = 1 := by
  unfold calculateSimilarity
  by_cases h : max s.length s.length = 0
  · rw [if_pos h]
  · rw [if_neg h]
    unfold levenshteinDistance
    rw [optimizedLevenshtein_self]
    simp

/-- Whitespace as recognised by JS `parseInt` / `trim` (ASCII whitespace and
NBSP; other Unicode space characters do not occur in the inputs of
interest). -/
def jsIsSpace (c : Char) : Bool :=
  c = ' ' || c = '\t' || c = '\n' || c = '\r' || c.toNat = 11 || c.toNat = 12 || c.toNat = 160

/-- Value of a leading decimal-digit run, `none` when there is no digit. -/
def digitsVal (l : List Char) : Option Nat :=
  let ds := l.takeWhile fun c => 48 ≤ c.toNat && c.toNat ≤ 57
  if ds.isEmpty then none
  else some (ds.foldl (fun a c => a * 10 + (c.toNat - 48)) 0)

/-- JS `parseInt(s, 10)`: skip leading whitespace, optional sign, then the
leading digit run; `NaN` (modelled as `none`) when no digits follow. -/
def jsParseInt10 (s : String) : Option Int :=
  let l := s.data.dropWhile jsIsSpace
  match l with
  | '-' :: rest => (digitsVal rest).map fun n => -(n : Int)
  | '+' :: rest => (digitsVal rest).map fun n => (n : Int)
  | _ => (digitsVal l).map fun n => (n : Int)

/-- JS `v || dflt` on an optional string: `undefined` and `''` are falsy. -/
def jsOrDefault (v : Option String) (dflt : String) : String :=
  match v with
  | none => dflt
  | some s => if s = "" then dflt else s

/-- JS `Math.min` on possibly-NaN numbers (`NaN` propagates). -/
def jsMinI : Option Int → Option Int → Option Int
  | some a, some b => some (min a b)
  | _, _ => none

/-- JS `Math.max` on possibly-NaN numbers (`NaN` propagates). -/
def jsMaxI : Option Int → Option Int → Option Int
  | some a, some b => some (max a b)
  | _, _ => none

/-- The environment fields read by `loadConfig` (utils/config.ts). -/
structure ConfigEnv where
  MIN_DATE : Option String
  RSS_FEEDS : Option String
  PATTERNS : Option String
  BATCH_SIZE : Option String
  MAX_CONCURRENCY : Option String
  RATE_LIMIT_ENABLED : Option String

/-- Result of `loadConfig`. `minDateRaw` keeps the raw input of the
`new Date(...)` construction; the numeric fields are JS numbers
(`none` = `NaN`). -/
structure AppConfig where
  minDateRaw : Option String
  patterns : List String
  rssFeeds : List String
  processAll : Bool
  rateLimitEnabled : Bool
  batchSize : Option Int
  maxConcurrency : Option Int
deriving Repr, DecidableEq

/-- `loadConfig` (utils/config.ts 18-54). -/
def loadConfig (env : ConfigEnv) : AppConfig :=
  let rssFeeds :=
    match env.RSS_FEEDS with
    | none => ["https://comshalom.org/feed/"]
    | some s =>
        if s = "" then ["https://comshalom.org/feed/"]
        else ((s.splitOn ",").map String.trim).filter (· ≠ "")
  let patterns :=
    match env.PATTERNS with
    | none => ["discernimentos"]
    | some s =>
        if s = "" then ["discernimentos"]
        else if s = "*" then ["*"]
        else ((s.splitOn ",").map String.trim).filter (· ≠ "")
  let processAll := patterns.length == 1 && patterns.getD 0 "" == "*"
  let batchSize := jsParseInt10 (jsOrDefault env.BATCH_SIZE "5")
  let maxConcurrency := jsParseInt10 (jsOrDefault env.MAX_CONCURRENCY "3")
  { minDateRaw := env.MIN_DATE
    patterns := patterns
    rssFeeds := rssFeeds
    processAll := processAll
    rateLimitEnabled := env.RATE_LIMIT_ENABLED ≠ some "false"
    batchSize := jsMaxI (some 1) (jsMinI batchSize (some 10))
    maxConcurrency := jsMaxI (some 1) (jsMinI maxConcurrency (some 10)) }

/-- JS `String.prototype.startsWith`. -/
def jsStartsWith (s pre : String) : Bool := pre.data.isPrefixOf s.data

/-- Authorization header built in `getDefaultBranch` (index.ts 222-224):
`Bearer` for the `github_pat_` token shape, `token` otherwise. -/
def authHeaderGetDefaultBranch (token : String) : String :=
  if jsStartsWith token "github_pat_" then "Bearer " ++ token else "token " ++ token

/-- Authorization header built for the file-existence check inside
`commitToGitHub` (index.ts 329-331): `Bearer` for the `ghp_` token shape,
`token` otherwise. -/
def authHeaderExistenceCheck (token : String) : String :=
  if jsStartsWith token "ghp_" then "Bearer " ++ token else "token " ++ token

/-- Authorization header built for the create-or-update PUT inside
`commitToGitHub` (index.ts 362-364). -/
def authHeaderPut (token : String) : String :=
  if jsStartsWith token "github_pat_" then "Bearer " ++ token else "token " ++ token

/-- The base64 alphabet. -/
def base64Chars : List Char :=
  "ABCDEFGHIJKLMNOPQRSTUVWXYZabcdefghijklmnopqrstuvwxyz0123456789+/".data

/-- One base64 output group from at most three input bytes. -/
def b64Group : List Nat → List Char
  | [a] => [base64Chars.getD (a / 4) 'A', base64Chars.getD (a % 4 * 16) 'A', '=', '=']
  | [a, b] => [base64Chars.getD (a / 4) 'A', base64Chars.getD (a % 4 * 16 + b / 16) 'A',
               base64Chars.getD (b % 16 * 4) 'A', '=']
  | a :: b :: c :: _ =>
      [base64Chars.getD (a / 4) 'A', base64Chars.getD (a % 4 * 16 + b / 16) 'A',
       base64Chars.getD (b % 16 * 4 + c / 64) 'A', base64Chars.getD (c % 64) 'A']
  | [] => []

/-- Base64 encoding of a byte list;
`btoa(unescape(encodeURIComponent(s)))` is base64 of the UTF-8 bytes. -/
def base64Encode : List Nat → List Char
  | [] => []
  | a :: b :: c :: rest => b64Group [a, b, c] ++ base64Encode rest
  | rest => b64Group rest

/-- The environment fields used by `commitToGitHub`. -/
structure CommitEnv where
  GITHUB_REPO_OWNER : String
  GITHUB_REPO_NAME : String
  GITHUB_TOKEN : String
  CUSTOM_DOMAIN : Option String

/-- JSON body of the create-or-update PUT (index.ts 368-381): `branch` only
when not the default, `sha` only when the file already exists. -/
structure PutBody where
  message : String
  content : String
  branch : Option String
  sha : Option String
deriving Repr, DecidableEq

/-- The PUT request `commitToGitHub` issues. -/
structure PutRequest where
  url : String
  authHeader : String
  body : PutBody
deriving Repr, DecidableEq

/-- Parsed success response of the PUT. -/
structure PutResponse where
  commitSha : String
  htmlUrl : Option String
deriving Repr, DecidableEq

/-- Value returned by `commitToGitHub` on success. -/
structure CommitOutcome where
  sha : Option String
  url : String
  githubUrl : String
deriving Repr, DecidableEq

/-- Network oracle for one attempt of `commitToGitHub`:
`existsResult` is the captured `existingSha` (`some sha` when the existence
GET returned ok with that sha; `none` when it failed or 404ed, which the
code catches and treats as "file does not exist"); `putResponse` is the
parsed PUT response (`none` = non-ok or thrown, retried by the loop). -/
structure CommitOracle where
  defaultBranch : String
  existsResult : Option String
  putResponse : Option PutResponse

/-- File path derived from the uuid (index.ts 310-311). -/
def commitFilePath (uuid : String) : String := "pages/" ++ uuid ++ ".html"

/-- Contents-API URL for a path (index.ts 315). -/
def commitApiUrl (env : CommitEnv) (path : String) : String :=
  "https://api.github.com/repos/" ++ env.GITHUB_REPO_OWNER ++ "/" ++
    env.GITHUB_REPO_NAME ++ "/contents/" ++ path

/-- One attempt of `commitToGitHub` (index.ts 317-444), from the point the
final HTML is fixed (`finalHtml` is the wrapped document when a communique
object was supplied). Returns the PUT request issued and the outcome
(`none` = attempt failed). -/
def commitAttempt (env : CommitEnv) (uuid title finalHtml : String)
    (o : CommitOracle) : PutRequest × Option CommitOutcome :=
  let path := commitFilePath uuid
  let apiUrl := commitApiUrl env path
  let existingSha := o.existsResult
  let content := String.mk (base64Encode (utf8Encode finalHtml))
  let authHeader := authHeaderPut env.GITHUB_TOKEN
  let requestBody : PutBody :=
    { message := "Auto-import: comunicado detectado no RSS do ComShalom – " ++ title
      content := content
      branch := if o.defaultBranch ≠ "main" then some o.defaultBranch else none
      sha := existingSha }
  let req : PutRequest := { url := apiUrl, authHeader := authHeader, body := requestBody }
  match o.putResponse with
  | none => (req, none)
  | some resp =>
      let githubUrl :=
        match resp.htmlUrl with
        | some u =>
            if u = "" then
              "https://github.com/" ++ env.GITHUB_REPO_OWNER ++ "/" ++
                env.GITHUB_REPO_NAME ++ "/blob/" ++ o.defaultBranch ++ "/" ++ path
            else u
        | none =>
            "https://github.com/" ++ env.GITHUB_REPO_OWNER ++ "/" ++
              env.GITHUB_REPO_NAME ++ "/blob/" ++ o.defaultBranch ++ "/" ++ path
      let publicUrl :=
        match env.CUSTOM_DOMAIN with
        | some d => if d = "" then githubUrl else "https://" ++ d ++ "/" ++ path
        | none => githubUrl
      (req, some { sha := some resp.commitSha, url := publicUrl, githubUrl := githubUrl })

/-- A normalized feed item (utils/rssParser.ts output). -/
structure RSSItem where
  title : String
  link : String
  pubDate : Option String
deriving Repr, DecidableEq

/-- A mirrored-item record as stored in KV (`Communique` in types.ts).
A JS-`undefined` optional field is `none`; the optional string fields of
older records may also be stored as `""`, which JS treats as falsy. -/
structure Communique where
  id : String
  uuid : String
  title : String
  url : String
  timestamp : String
  html : String
  githubSha : Option String
  githubUrl : Option String
  publicUrl : Option String
deriving Repr, DecidableEq

/-- A raw KV value: either the `JSON.stringify` of a `Communique` (which
`JSON.parse` round-trips), or some other blob on which `JSON.parse` of a
record fails. -/
inductive StoredVal where
  | record (c : Communique)
  | blob (s : String)
deriving Repr, DecidableEq

/-- `JSON.parse` of a stored value, as used on KV reads (the `catch` branch
of the parse corresponds to `none`). -/
def parseStored : StoredVal → Option Communique
  | .record c => some c
  | .blob _ => none

/-- The KV namespace (`env.COMMUNIQUE_STORE`) as explicit state. -/
def KVStore := String → Option StoredVal

/-- `COMMUNIQUE_STORE.put`. -/
def kvPut (store : KVStore) (k : String) (v : StoredVal) : KVStore :=
  fun key => if key = k then some v else store key

/-- Observable side effects of one item run, in order. -/
inductive Effect where
  | fetchHTML (url : String)
  | kvWrite (key : String)
  | commitCall
  | emailCall
  | pushCall
deriving Repr, DecidableEq

/-- Return value of `processItem`. -/
structure ProcResult where
  success : Bool
  error : Option String
deriving Repr, DecidableEq

/-- Oracle for the effectful calls inside `processItem`: the fresh
`crypto.randomUUID()`, the outcome of `fetchFullHTML` (`Except.error` =
thrown after retries), `new Date(item.pubDate).toISOString()` (`none` =
throws on an unparseable date), `new Date().toISOString()`, and the outcome
of `commitToGitHub`. Email and push outcomes are absent because their
failures are caught and swallowed (index.ts 956-977), so the result cannot
depend on them. -/
structure ProcOracle where
  freshUuid : String
  fetchHTML : Except String String
  dateISO : Option String
  nowISO : String
  commit : Except String CommitOutcome

/-- `processItem` (index.ts 894-986), as result, final KV state and effect
trace. The id is the SHA-256-derived identity of the link. -/
def processItem (item : RSSItem) (store : KVStore) (o : ProcOracle) :
    ProcResult × KVStore × List Effect :=
  let id := processItemId item.link
  let uuid := o.freshUuid
  let dup : Bool :=
    match store id with
    | some sv =>
        match parseStored sv with
        | some parsed => parsed.url == item.link || parsed.title == item.title
        | none => false
    | none => false
  if dup then
    ({ success := false, error := some "Already exists" }, store, [])
  else
    match o.fetchHTML with
    | .error e => ({ success := false, error := some e }, store, [.fetchHTML item.link])
    | .ok html =>
        let timestampResult : Option String :=
          match item.pubDate with
          | some _ => o.dateISO
          | none => some o.nowISO
        match timestampResult with
        | none =>
            ({ success := false, error := some "Invalid time value" }, store,
             [.fetchHTML item.link])
        | some timestamp =>
            let c1 : Communique :=
              { id := id, uuid := uuid, title := item.title, url := item.link,
                timestamp := timestamp, html := html,
                githubSha := none, githubUrl := none, publicUrl := none }
            let store1 := kvPut store id (.record c1)
            match o.commit with
            | .error e =>
                ({ success := false, error := some e }, store1,
                 [.fetchHTML item.link, .kvWrite id, .commitCall])
            | .ok g =>
                let c2 := { c1 with
                  githubSha := g.sha
                  githubUrl := some g.githubUrl
                  publicUrl := some g.url }
                let store2 := kvPut store1 id (.record c2)
                ({ success := true, error := none }, store2,
                 [.fetchHTML item.link, .kvWrite id, .commitCall, .kvWrite id,
                  .emailCall, .pushCall])

/-- The run counters of `processRSSFeed`. -/
structure RunStats where
  processed : Nat
  saved : Nat
  errors : Nat
deriving Repr, DecidableEq

/-- The per-item accounting in the batch loop (index.ts 1490-1496):
`saved` on success, `errors` otherwise. -/
def recordOutcome (stats : RunStats) (r : ProcResult) : RunStats :=
  if r.success then { stats with saved := stats.saved + 1 }
  else { stats with errors := stats.errors + 1 }

/-- Substring test (`String.prototype.includes`) on char lists. -/
def containsSub : List Char → List Char → Bool
  | [], needle => needle.isEmpty
  | l@(_ :: t), needle => needle.isPrefixOf l || containsSub t needle

/-- Case-insensitive test that `l` starts with the lowercase pattern `pat`,
modelling a `/i` regex literal. -/
def ciStarts (l pat : List Char) : Bool := (l.take pat.length).map jsToLower == pat

/-- Suffix after the first case-insensitive occurrence of `needle`. -/
def afterSubCI (needle : List Char) : List Char → Option (List Char)
  | [] => none
  | l@(_ :: t) => if ciStarts l needle then some (l.drop needle.length) else afterSubCI needle t

/-- Consume up to and including the next `>` (the regex step `[^>]*>`). -/
def splitAfterGt : List Char → Option (List Char)
  | [] => none
  | c :: t => if c = '>' then some t else splitAfterGt t

/-- Match `openTag[^>]*>[\s\S]*?closeTag` (case-insensitive) at the head of
`l`; returns the suffix after the match. -/
def matchBlock (openTag closeTag : List Char) (l : List Char) : Option (List Char) :=
  if ciStarts l openTag then
    match splitAfterGt (l.drop openTag.length) with
    | none => none
    | some r2 => afterSubCI closeTag r2
  else none

/-- Global replace-with-empty of the block pattern, scanning left to right
(fuel bounds the recursion; one char is consumed per step). -/
def removeBlocksAux (openTag closeTag : List Char) : Nat → List Char → List Char
  | 0, l => l
  | _ + 1, [] => []
  | fuel + 1, c :: t =>
      match matchBlock openTag closeTag (c :: t) with
      | some rest => removeBlocksAux openTag closeTag fuel rest
      | none => c :: removeBlocksAux openTag closeTag fuel t

/-- `html.replace(/openTag[^>]*>[\s\S]*?closeTag/gi, '')`. -/
def removeBlocks (openTag closeTag : List Char) (l : List Char) : List Char :=
  removeBlocksAux openTag closeTag l.length l

/-- One step of `replace(/<[^>]*>/g, ' ')`, fuel-bounded. -/
def stripTagsAux : Nat → List Char → List Char
  | 0, l => l
  | _ + 1, [] => []
  | fuel + 1, c :: t =>
      if c = '<' then
        match splitAfterGt t with
        | some rest => ' ' :: stripTagsAux fuel rest
        | none => c :: stripTagsAux fuel t
      else c :: stripTagsAux fuel t

/-- `replace(/<[^>]*>/g, ' ')`: every complete tag becomes one space. -/
def stripTags (l : List Char) : List Char := stripTagsAux l.length l

/-- Collapse runs of adjacent spaces to one space. -/
def squeeze : List Char → List Char
  | [] => []
  | [c] => [c]
  | a :: b :: t => if a = ' ' && b = ' ' then squeeze (b :: t) else a :: squeeze (b :: t)

/-- `replace(/\s+/g, ' ')`. -/
def normWs (l : List Char) : List Char :=
  squeeze (l.map fun c => if jsIsSpace c then ' ' else c)

/-- JS `String.prototype.trim` on a char list. -/
def trimSpacesList (l : List Char) : List Char :=
  ((l.dropWhile jsIsSpace).reverse.dropWhile jsIsSpace).reverse

/-- JS `String.prototype.trim`. -/
def jsTrim (s : String) : String := String.mk (trimSpacesList s.data)

/-- The text extraction of `isValidContent` (index.ts 1005-1010): remove
script blocks, remove style blocks, replace tags by spaces, collapse
whitespace, trim. -/
def extractText (html : List Char) : List Char :=
  trimSpacesList (normWs (stripTags
    (removeBlocks "<style".data "</style>".data
      (removeBlocks "<script".data "</script>".data html))))

/-- Word lists of the strong-error-page alternation
(`página não foi encontrada | página não encontrada | page not found |
404 | erro 404`), each word separated by whitespace runs. -/
def strongErrAlts : List (List (List Char)) :=
  [["página".data, "não".data, "foi".data, "encontrada".data],
   ["página".data, "não".data, "encontrada".data],
   ["page".data, "not".data, "found".data],
   ["404".data],
   ["erro".data, "404".data]]

/-- Match a word sequence separated by `\s+`; returns the remaining text. -/
def matchWords : List (List Char) → List Char → Option (List Char)
  | [], l => some l
  | [w], l => if w.isPrefixOf l then some (l.drop w.length) else none
  | w :: ws, l =>
      if w.isPrefixOf l then
        let r := l.drop w.length
        let r2 := r.dropWhile jsIsSpace
        if r2.length < r.length then matchWords ws r2 else none
      else none

/-- Match one strong-error pattern
(`openTag[^>]*>\s*(alternatives)\s*closeTag`) at the head of the
already-lower-cased text. -/
def strongErrMatch (openTag closeTag : List Char) (l : List Char) : Bool :=
  if openTag.isPrefixOf l then
    match splitAfterGt (l.drop openTag.length) with
    | none => false
    | some r =>
        strongErrAlts.any fun alt =>
          match matchWords alt (r.dropWhile jsIsSpace) with
          | none => false
          | some r3 => closeTag.isPrefixOf (r3.dropWhile jsIsSpace)
  else false

/-- `RegExp.prototype.test`: does the pattern match at any position? -/
def anySuffix (p : List Char → Bool) : List Char → Bool
  | [] => p []
  | c :: t => p (c :: t) || anySuffix p t

/-- The `strongErrorPatterns` test of `isValidContent` (index.ts 1032-1049),
on the lower-cased document. -/
def strongError (lowerHtml : List Char) : Bool :=
  anySuffix (strongErrMatch "<title".data "</title>".data) lowerHtml ||
  anySuffix (strongErrMatch "<h1".data "</h1>".data) lowerHtml

/-- `tag[^>]*>` present anywhere (the tag text plus a later `>`). -/
def openTagPresent (tag : List Char) (l : List Char) : Bool :=
  anySuffix (fun s => tag.isPrefixOf s && (s.drop tag.length).contains '>') l

/-- Match `<div[^>]*attr[^>]*content` at the head of the lower-cased text. -/
def divAttrMatch (attr : List Char) (l : List Char) : Bool :=
  if "<div".data.isPrefixOf l then
    let region := (l.drop 4).takeWhile (· ≠ '>')
    match afterSubCI attr region with
    | none => false
    | some rest => containsSub rest "content".data
  else false

/-- The `contentElements` checks of `isValidContent` (index.ts 1052-1062):
headings, paragraphs, article/section/main, content-classed divs, lists. -/
def hasContentElems (lowerHtml : List Char) : Bool :=
  ['1', '2', '3', '4', '5', '6'].any (fun d => openTagPresent ("<h".data ++ [d]) lowerHtml) ||
  openTagPresent "<p".data lowerHtml ||
  openTagPresent "<article".data lowerHtml ||
  openTagPresent "<section".data lowerHtml ||
  openTagPresent "<main".data lowerHtml ||
  anySuffix (divAttrMatch "class".data) lowerHtml ||
  anySuffix (divAttrMatch "id".data) lowerHtml ||
  openTagPresent "<ul".data lowerHtml ||
  openTagPresent "<ol".data lowerHtml ||
  openTagPresent "<li".data lowerHtml

/-- The fixed domain-keyword list of `isValidContent` (index.ts 1066-1071). -/
def contentKeywords : List String :=
  ["comunicado", "discernimento", "comissão", "nomeação", "transferência",
   "fundação", "missão", "comunidade", "shalom", "católica", "deus",
   "missionário", "responsável", "local", "diaconia", "assistência",
   "formação", "apostólica", "comunitária", "regional", "secretaria"]

/-- Result of `isValidContent` (the `details` field is logging-only and
omitted). -/
structure ValidationResult where
  valid : Bool
  reason : String
deriving Repr, DecidableEq

/-- `isValidContent` (index.ts 990-1142). -/
def isValidContent (html : String) : ValidationResult :=
  if html.data.all jsIsSpace then
    { valid := false, reason := "HTML vazio ou nulo" }
  else
    let lowerHtml := html.data.map jsToLower
    let textLength := (extractText html.data).length
    if textLength < 50 then
      { valid := false,
        reason := "Conteúdo muito curto (" ++ toString textLength ++ " caracteres)" }
    else if strongError lowerHtml ∧ textLength < 200 then
      { valid := false, reason := "Página de erro detectada no título/heading principal" }
    else
      let isStrongError := strongError lowerHtml
      let foundKeywords := contentKeywords.filter fun k => containsSub lowerHtml k.data
      if foundKeywords ≠ [] then
        { valid := true,
          reason := "Palavras-chave de conteúdo encontradas (" ++ toString foundKeywords.length
            ++ "): " ++ String.intercalate ", " (foundKeywords.take 3) }
      else if 200 ≤ textLength ∧ hasContentElems lowerHtml then
        { valid := true,
          reason := "Conteúdo suficiente (" ++ toString textLength ++ " chars) com elementos HTML" }
      else if 500 ≤ textLength then
        { valid := true, reason := "Conteúdo extenso (" ++ toString textLength ++ " caracteres)" }
      else if 150 ≤ textLength ∧ ¬ isStrongError then
        { valid := true,
          reason := "Conteúdo moderado (" ++ toString textLength ++ " caracteres) sem erro forte" }
      else if hasContentElems lowerHtml ∧ 100 ≤ textLength then
        { valid := true,
          reason := "Elementos HTML presentes com " ++ toString textLength ++ " caracteres" }
      else
        { valid := false,
          reason := "Conteúdo insuficiente: " ++ toString textLength ++
            " chars, sem keywords, sem elementos HTML suficientes" }

/-- Match `openTag[^>]*>([^<]+)closeTag` (case-insensitive) at the head of
`l`; returns the capture. -/
def tagTextMatch (openTag closeTag : List Char) (l : List Char) : Option (List Char) :=
  if ciStarts l openTag then
    match splitAfterGt (l.drop openTag.length) with
    | none => none
    | some r =>
        let cap := r.takeWhile (· ≠ '<')
        if cap.isEmpty then none
        else if ciStarts (r.drop cap.length) closeTag then some cap
        else none
  else none

/-- First match of `tagTextMatch` over all positions (`String.match`). -/
def findFirstTagText (openTag closeTag : List Char) : List Char → Option (List Char)
  | [] => none
  | l@(_ :: t) =>
      match tagTextMatch openTag closeTag l with
      | some cap => some cap
      | none => findFirstTagText openTag closeTag t

/-- Either regex quote character. -/
def isQuote (c : Char) : Bool := c = '"' || c = Char.ofNat 39

/-- Match the `og:title` meta regex of `extractTitleFromHTML`: `<meta`,
then within the attribute region (the regex cannot cross a `>`) a
`property=` with a quoted `og:title`, then a `content=` whose quoted,
nonempty value is captured. The engine backtracking scan is modelled by
first-occurrence search, which agrees on tags with unique `property` and
`content` attributes. -/
def ogTitleMatch (l : List Char) : Option (List Char) :=
  if ciStarts l "<meta".data then
    let region := (l.drop 5).takeWhile (· ≠ '>')
    match afterSubCI "property=".data region with
    | none => none
    | some r1 =>
        match r1 with
        | [] => none
        | q1 :: r2 =>
            if isQuote q1 && ciStarts r2 "og:title".data then
              match r2.drop 8 with
              | [] => none
              | q2 :: r4 =>
                  if isQuote q2 then
                    match afterSubCI "content=".data r4 with
                    | none => none
                    | some r5 =>
                        match r5 with
                        | [] => none
                        | q3 :: r6 =>
                            if isQuote q3 then
                              let cap := r6.takeWhile fun c => !(isQuote c)
                              if cap.isEmpty then none
                              else
                                match r6.drop cap.length with
                                | q4 :: _ => if isQuote q4 then some cap else none
                                | [] => none
                            else none
                  else none
            else none
  else none

/-- First `og:title` match over all positions. -/
def findFirstOg : List Char → Option (List Char)
  | [] => none
  | l@(_ :: t) =>
      match ogTitleMatch l with
      | some cap => some cap
      | none => findFirstOg t

/-- `extractTitleFromHTML` (index.ts 1145-1178): `<title>`, then `<h1>`,
then `og:title`, each accepted only when the trimmed capture has more than
10 characters; otherwise the supplied default. -/
def extractTitleFromHTML (html : String) (defaultTitle : String) : String :=
  let fromTitle :=
    match findFirstTagText "<title".data "</title>".data html.data with
    | some cap =>
        let t := jsTrim (String.mk cap)
        if t ≠ "" ∧ 10 < t.length then some t else none
    | none => none
  match fromTitle with
  | some t => t
  | none =>
      let fromH1 :=
        match findFirstTagText "<h1".data "</h1>".data html.data with
        | some cap =>
            let t := jsTrim (String.mk cap)
            if t ≠ "" ∧ 10 < t.length then some t else none
        | none => none
      match fromH1 with
      | some t => t
      | none =>
          match findFirstOg html.data with
          | some cap =>
              let t := jsTrim (String.mk cap)
              if t ≠ "" ∧ 10 < t.length then t else defaultTitle
          | none => defaultTitle

/-- Return value of `checkSpecificUrl`. -/
structure CheckResult where
  success : Bool
  error : Option String
  isNew : Option Bool
deriving Repr, DecidableEq

/-- Oracle for the effectful calls inside `checkSpecificUrl`. Email
failures are caught and swallowed (index.ts 1340-1346), so the result
cannot depend on them. -/
structure CheckOracle where
  fetchHTML : Except String String
  freshUuid : String
  nowISO : String
  commit : Except String CommitOutcome

/-- JS truthiness of an optional string field (`undefined` and `''` are
falsy). -/
def jsTruthyOpt : Option String → Bool
  | some s => s != ""
  | none => false

/-- `checkSpecificUrl` (index.ts 1181-1357), as result, final KV state and
effect trace. -/
def checkSpecificUrl (url : String) (store : KVStore) (o : CheckOracle) :
    CheckResult × KVStore × List Effect :=
  let id := checkSpecificUrlId url
  match o.fetchHTML with
  | .error e => ({ success := false, error := some e, isNew := none }, store, [.fetchHTML url])
  | .ok html =>
      let validation := isValidContent html
      let altTextLength := (trimSpacesList (normWs (stripTags html.data))).length
      if validation.valid = false ∧ altTextLength < 50 then
        ({ success := false
           error := some ("Conteúdo inválido: " ++
             (if validation.reason = "" then "página muito curta ou vazia" else validation.reason))
           isNew := none }, store, [.fetchHTML url])
      else
        let defaultTitle := "Comunicado acerca dos discernimentos de dezembro de 2025"
        let extractedTitle := extractTitleFromHTML html defaultTitle
        let existingItem : Option Communique :=
          match store id with
          | some sv => parseStored sv
          | none => none
        let skipUnchanged :=
          match existingItem with
          | some ex => jsTruthyOpt ex.publicUrl && html == ex.html
          | none => false
        if skipUnchanged then
          ({ success := true, error := none, isNew := some false }, store, [.fetchHTML url])
        else
          let uuid :=
            match existingItem with
            | some ex => if ex.uuid ≠ "" then ex.uuid else o.freshUuid
            | none => o.freshUuid
          let timestamp :=
            match existingItem with
            | some ex => if ex.timestamp ≠ "" then ex.timestamp else o.nowISO
            | none => o.nowISO
          let c : Communique :=
            { id := id, uuid := uuid, title := extractedTitle, url := url,
              timestamp := timestamp, html := html,
              githubSha := none, githubUrl := none, publicUrl := none }
          match o.commit with
          | .error e =>
              ({ success := false, error := some e, isNew := none }, store,
               [.fetchHTML url, .commitCall])
          | .ok g =>
              let c2 := { c with
                githubSha := g.sha
                githubUrl := some g.githubUrl
                publicUrl := some g.url }
              let store2 := kvPut store id (.record c2)
              ({ success := true, error := none, isNew := some existingItem.isNone }, store2,
               [.fetchHTML url, .commitCall, .kvWrite id] ++
                 (if existingItem.isNone then [.emailCall] else []))

/-- State of the batch scheduler of `processRSSFeed` (index.ts 1477-1503):
the `semaphore` array of submitted operations (never pruned), the set of
operations that have settled, and the items of the batch still to submit. -/
structure SchedState where
  submitted : List Nat
  completed : List Nat
  pending : List Nat
deriving Repr, DecidableEq

/-- One scheduler or environment step.
`complete`: a submitted, unfinished operation settles (any await point).
`submit`: the loop submits the next item; when `semaphore.length ≥
maxConcurrency` it first awaits `Promise.race(semaphore)`, which resolves
as soon as ANY element of the array — including one that settled long ago —
has settled, since settled promises are never removed from the array. -/
inductive SchedStep (k : Nat) : SchedState → SchedState → Prop
  | complete (s : SchedState) (t : Nat) (hmem : t ∈ s.submitted) (hnot : t ∉ s.completed) :
      SchedStep k s { s with completed := t :: s.completed }
  | submit (s : SchedState) (t : Nat) (rest : List Nat) (hp : s.pending = t :: rest)
      (hrace : k ≤ s.submitted.length → ∃ u ∈ s.submitted, u ∈ s.completed) :
      SchedStep k s { submitted := s.submitted ++ [t], completed := s.completed, pending := rest }

/-- Number of in-flight operations: submitted and not yet settled. -/
def inFlight (s : SchedState) : Nat :=
  (s.submitted.filter fun t => !(s.completed.contains t)).length

/-- Initial scheduler state for a batch. -/
def schedInit (items : List Nat) : SchedState :=
  { submitted := [], completed := [], pending := items }

/-- States reachable by the batch scheduler on `items` with
`maxConcurrency = k`. -/
def SchedReachable (k : Nat) (items : List Nat) (s : SchedState) : Prop :=
  Relation.ReflTransGen (SchedStep k) (schedInit items) s

/-- A feed item whose link already has a stored record. -/
def dupItem : RSSItem := { title := "Comunicado A", link := "https://x/y", pubDate := none }

/-- The stored record for `dupItem`: same `sourceUrl`, different title, no
`githubSha` (never published) and a previously assigned uuid. -/
def dupStored : Communique :=
  { id := "", uuid := "old-uuid", title := "Other title", url := "https://x/y",
    timestamp := "2025-01-01T00:00:00.000Z", html := "<p>old</p>",
    githubSha := none, githubUrl := none, publicUrl := none }

/-- A store holding `dupStored` under the id derived from the link. -/
def dupStore : KVStore :=
  fun k => if k = processItemId "https://x/y" then some (.record dupStored) else none

/-- An oracle under which fetch and commit would succeed, were they
reached. -/
def dupOracle : ProcOracle :=
  { freshUuid := "fresh-uuid", fetchHTML := .ok "<p>new</p>", dateISO := none,
    nowISO := "2025-02-02T00:00:00.000Z",
    commit := .ok { sha := some "abc", url := "https://pub/x", githubUrl := "https://gh/x" } }

/-- Claim C1 (amended): when the stored record at the item id has a
matching `sourceUrl` or `title`, `processItem` performs no content fetch
and no store write, leaves the store unchanged, returns the
distinguishable non-success outcome `Already exists`, and the run
accounting leaves `saved` unchanged but DOES increment `errors` (the batch
loop counts every non-success result as an error). -/
theorem claimC1_amended (item : RSSItem) (store : KVStore) (o : ProcOracle)
    (ex : Communique) (hsv : store (processItemId item.link) = some (.record ex))
    (hmatch : ex.url = item.link ∨ ex.title = item.title) (stats : RunStats) :
    (processItem item store o).1 = { success := false, error := some "Already exists" } ∧
    (processItem item store o).2.1 = store ∧
    (processItem item store o).2.2 = [] ∧
    recordOutcome stats (processItem item store o).1
      = { stats with errors := stats.errors + 1 } := by
  have hdup : (ex.url == item.link || ex.title == item.title) = true := by
    cases hmatch with
    | inl h => simp [h]
    | inr h => simp [h]
  simp [processItem, hsv, parseStored, hdup, recordOutcome]

/-- Claim C1 witness: the amended claim at a concrete duplicate item. -/
theorem claimC1_witness :
    (processItem dupItem dupStore dupOracle).1
      = { success := false, error := some "Already exists" } ∧
    (processItem dupItem dupStore dupOracle).2.1 = dupStore ∧
    (processItem dupItem dupStore dupOracle).2.2 = [] ∧
    recordOutcome { processed := 4, saved := 1, errors := 0 }
      (processItem dupItem dupStore dupOracle).1
      = { processed := 4, saved := 1, errors := 1 } :=
  claimC1_amended dupItem dupStore dupOracle dupStored (by simp [dupStore, dupItem])
    (Or.inl rfl) { processed := 4, saved := 1, errors := 0 }

/-- Claim C1 counterexample: at a concrete duplicate item the run errors
counter IS incremented (0 becomes 1), contradicting the claim that a
duplicate skip never increments `errors`. -/
theorem claimC1_counterexample :
    (processItem dupItem dupStore dupOracle).1
      = { success := false, error := some "Already exists" } ∧
    (recordOutcome { processed := 1, saved := 0, errors := 0 }
      (processItem dupItem dupStore dupOracle).1).errors ≠ 0 := by
  constructor
  · simp [processItem, dupItem, dupStore, dupOracle, dupStored, parseStored]
  · simp [processItem, dupItem, dupStore, dupOracle, dupStored, parseStored, recordOutcome]

/-- Claim C3 counterexample: the stored record has no `githubSha` (claim:
"needs reprocessing") yet `processItem` skips it with `Already exists` and
performs no effect at all — no reprocessing, no uuid reuse. -/
theorem claimC3_counterexample :
    dupStored.githubSha = none ∧ dupStored.uuid = "old-uuid" ∧
    (processItem dupItem dupStore dupOracle).1
      = { success := false, error := some "Already exists" } ∧
    (processItem dupItem dupStore dupOracle).2.2 = [] := by
  refine ⟨rfl, rfl, ?_, ?_⟩ <;>
    simp [processItem, dupItem, dupStore, dupOracle, dupStored, parseStored]

/-- Claim C3 (amended): the reprocess-and-reuse-uuid behaviour lives in
`checkSpecificUrl`, not `processItem`: for a stored record with no
`publicUrl` (ingested but never published), `checkSpecificUrl` reprocesses
the url and the rewritten record keeps the previously stored non-empty
uuid instead of the freshly minted one. -/
theorem claimC3_amended (url : String) (store : KVStore) (o : CheckOracle)
    (ex : Communique) (hsv : store (checkSpecificUrlId url) = some (.record ex))
    (hnopub : ex.publicUrl = none) (huuid : ex.uuid ≠ "")
    (html : String) (hfetch : o.fetchHTML = .ok html)
    (hvalid : (isValidContent html).valid = true)
    (g : CommitOutcome) (hcommit : o.commit = .ok g) :
    (checkSpecificUrl url store o).1.success = true ∧
    ∃ c : Communique,
      (checkSpecificUrl url store o).2.1 (checkSpecificUrlId url) = some (.record c) ∧
      c.uuid = ex.uuid := by
  constructor
  · simp [checkSpecificUrl, hfetch, hvalid, hsv, parseStored, jsTruthyOpt, hnopub, hcommit]
  · refine ⟨⟨checkSpecificUrlId url, ex.uuid,
      extractTitleFromHTML html "Comunicado acerca dos discernimentos de dezembro de 2025",
      url, (if ex.timestamp ≠ "" then ex.timestamp else o.nowISO),
      html, g.sha, some g.githubUrl, some g.url⟩, ?_, rfl⟩
    simp [checkSpecificUrl, hfetch, hvalid, hsv, parseStored, jsTruthyOpt, hnopub, huuid,
      hcommit, kvPut]

/-- A specific url with a stored record that was never published. -/
def staleUrl : String := "https://portal.shalom.tec.br/2025-dezembro-discernimentos"

/-- A stored record with no `publicUrl` and a previously assigned uuid. -/
def staleStored : Communique :=
  ⟨"", "kept-uuid", "Old title", staleUrl, "2025-01-01T00:00:00.000Z", "<p>old</p>",
   none, none, none⟩

/-- A store holding `staleStored` under the id derived from `staleUrl`. -/
def staleStore : KVStore :=
  fun k => if k = checkSpecificUrlId staleUrl then some (.record staleStored) else none

/-- A page whose extracted text passes the content validator by keywords. -/
def kwHtml : String :=
  "<p>comunicado apostólico da comunidade para a missão regional e local em dezembro</p>"

/-- An oracle with a successful fetch of `kwHtml` and a successful commit. -/
def staleOracle : CheckOracle :=
  { fetchHTML := .ok kwHtml, freshUuid := "fresh-uuid-2",
    nowISO := "2025-04-04T00:00:00.000Z",
    commit := .ok { sha := some "sha2", url := "https://pub/2", githubUrl := "https://gh/2" } }

/-- Claim C3 witness: the amended claim at a concrete unpublished record. -/
theorem claimC3_witness :
    (checkSpecificUrl staleUrl staleStore staleOracle).1.success = true ∧
    ∃ c : Communique,
      (checkSpecificUrl staleUrl staleStore staleOracle).2.1 (checkSpecificUrlId staleUrl)
        = some (.record c) ∧
      c.uuid = "kept-uuid" :=
  claimC3_amended staleUrl staleStore staleOracle staleStored (by simp [staleStore])
    rfl (by decide) kwHtml rfl (by decide) _ rfl

/-- Claim C4 (amended): the keyword rule of `isValidContent` accepts
regardless of the length thresholds of the later criteria, but only after
the earlier gates pass: the HTML is not whitespace-only, the extracted
text has at least 50 characters, and the page is not a strong error page
with text under 200 characters. In particular keyword-containing HTML
whose extracted text is under 50 characters is rejected, not accepted. -/
theorem claimC4_amended (html : String)
    (hne : html.data.all jsIsSpace = false)
    (hlen : 50 ≤ (extractText html.data).length)
    (herr : ¬ (strongError (html.data.map jsToLower) = true ∧
      (extractText html.data).length < 200))
    (hkw : contentKeywords.filter (fun k => containsSub (html.data.map jsToLower) k.data) ≠ []) :
    (isValidContent html).valid = true := by
  simp only [isValidContent]
  rw [if_neg (by simp [hne])]
  rw [if_neg (by omega)]
  rw [if_neg herr]
  rw [if_pos hkw]

/-- Claim C4 witness: a keyword page with 80 chars of text is accepted. -/
theorem claimC4_witness : (isValidContent kwHtml).valid = true :=
  claimC4_amended kwHtml (by decide) (by decide) (by decide) (by decide)

/-- Claim C4 counterexample: `<p>comunicado</p>` contains the domain
keyword `comunicado`, yet its extracted text (10 chars, under 50) makes
`isValidContent` reject it — the minimum-length gate runs before the
keyword rule, contradicting "accepts even when shorter than 50". -/
theorem claimC4_counterexample :
    containsSub ("<p>comunicado</p>".data.map jsToLower) "comunicado".data = true ∧
    (isValidContent "<p>comunicado</p>").valid = false := by
  refine ⟨?_, ?_⟩ <;> decide

/-- Claim C2: the batch scheduler DOES exceed `maxConcurrency`. With
`k = 2` and four items, once item 0 has completed, `Promise.race` over the
never-pruned `semaphore` array resolves immediately, so items 2 and 3 are
both submitted while item 1 is still in flight: a reachable state has
three simultaneously in-flight operations. -/
theorem claimC2_bound_violation :
    ∃ s : SchedState, SchedReachable 2 [0, 1, 2, 3] s ∧ 2 < inFlight s := by
  refine ⟨⟨[0, 1, 2, 3], [0], []⟩, ?_, by decide⟩
  have t0 : Relation.ReflTransGen (SchedStep 2) (schedInit [0, 1, 2, 3]) (schedInit [0, 1, 2, 3]) :=
    Relation.ReflTransGen.refl
  have t1 := t0.tail (SchedStep.submit (schedInit [0, 1, 2, 3]) 0 [1, 2, 3] rfl (by decide))
  have t2 := t1.tail (SchedStep.submit ⟨[0], [], [1, 2, 3]⟩ 1 [2, 3] rfl (by decide))
  have t3 := t2.tail (SchedStep.complete ⟨[0, 1], [], [2, 3]⟩ 0 (by decide) (by decide))
  have t4 := t3.tail (SchedStep.submit ⟨[0, 1], [0], [2, 3]⟩ 2 [3] rfl (by decide))
  have t5 := t4.tail (SchedStep.submit ⟨[0, 1, 2], [0], [3]⟩ 3 [] rfl (by decide))
  exact t5

/-- Claim C5: for the classic token shape `ghp_...` the metadata lookup
and the PUT use the `token` scheme while the file-existence check uses the
`Bearer` scheme — the existence check (index.ts 329) tests the `ghp_`
instead of the `github_pat_` token shape, so the three call sites do NOT
agree, contradicting the comments at index.ts 220-221 and 360-361. -/
theorem claimC5_theorem :
    authHeaderGetDefaultBranch "ghp_a" = "token ghp_a" ∧
    authHeaderPut "ghp_a" = "token ghp_a" ∧
    authHeaderExistenceCheck "ghp_a" = "Bearer ghp_a" ∧
    authHeaderExistenceCheck "ghp_a" ≠ authHeaderGetDefaultBranch "ghp_a" := by
  refine ⟨?_, ?_, ?_, ?_⟩ <;> decide

/-- Claim C6 counterexample: with `BATCH_SIZE = "abc"`, `parseInt` yields
`NaN`, which `Math.min`/`Math.max` propagate, so `batchSize` is `NaN` and
lies in no interval — contradicting "always in [1,10]". -/
theorem claimC6_counterexample :
    ¬ ∃ k : Int, (loadConfig ⟨none, none, none, some "abc", none, none⟩).batchSize = some k ∧
      1 ≤ k ∧ k ≤ 10 := by
  intro ⟨k, hk, _⟩
  have hnone : (loadConfig ⟨none, none, none, some "abc", none, none⟩).batchSize = none := by
    decide
  rw [hnone] at hk
  exact Option.noConfusion hk

/-- Claim C6 (amended): whenever the (defaulted) `BATCH_SIZE` and
`MAX_CONCURRENCY` values parse to actual numbers — in particular when they
are absent or empty, defaulting to 5 and 3 — the clamp puts both
`batchSize` and `maxConcurrency` in [1,10]; a non-numeric value instead
propagates `NaN` through the clamp. -/
theorem claimC6_amended (env : ConfigEnv) (b c : Int)
    (hb : jsParseInt10 (jsOrDefault env.BATCH_SIZE "5") = some b)
    (hc : jsParseInt10 (jsOrDefault env.MAX_CONCURRENCY "3") = some c) :
    (∃ k : Int, (loadConfig env).batchSize = some k ∧ 1 ≤ k ∧ k ≤ 10) ∧
    (∃ k : Int, (loadConfig env).maxConcurrency = some k ∧ 1 ≤ k ∧ k ≤ 10) := by
  constructor
  · exact ⟨max 1 (min b 10), by simp [loadConfig, hb, jsMinI, jsMaxI], by omega, by omega⟩
  · exact ⟨max 1 (min c 10), by simp [loadConfig, hc, jsMinI, jsMaxI], by omega, by omega⟩

/-- Claim C6 witness: the amended claim for the empty environment (both
values default, giving 5 and 3). -/
theorem claimC6_witness :
    (∃ k : Int, (loadConfig ⟨none, none, none, none, none, none⟩).batchSize = some k ∧
      1 ≤ k ∧ k ≤ 10) ∧
    (∃ k : Int, (loadConfig ⟨none, none, none, none, none, none⟩).maxConcurrency = some k ∧
      1 ≤ k ∧ k ≤ 10) :=
  claimC6_amended ⟨none, none, none, none, none, none⟩ 5 3 (by decide) (by decide)

/-- Claim C7: the create-or-update PUT body carries a `sha` field exactly
when the preceding existence check found the file (its captured sha is
forwarded unchanged, and omitted on a 404), and the request targets the
deterministic uuid-derived path `pages/(uuid).html`. -/
theorem claimC7_theorem (env : CommitEnv) (uuid title finalHtml : String) (o : CommitOracle) :
    (commitAttempt env uuid title finalHtml o).1.body.sha = o.existsResult ∧
    (commitAttempt env uuid title finalHtml o).1.url = commitApiUrl env (commitFilePath uuid) := by
  rcases o with ⟨db, ex, pr⟩
  cases pr <;> exact ⟨rfl, rfl⟩

/-- Claim C8: the id derivation — SHA-256 over the UTF-8 bytes of the
link, hex-encoded, truncated to 32 hex chars — is a pure function of the
link (so repeated derivations agree), and the derivations embedded from
`processItem` and from `checkSpecificUrl` coincide on every link. -/
theorem claimC8_theorem : ∀ link : String,
    processItemId link = checkSpecificUrlId link ∧ processItemId link = processItemId link :=
  fun _ => ⟨rfl, rfl⟩

/-- Claim C9: `calculateSimilarity s s = 1` for every string (including
the empty string, via the `maxLen = 0` branch), because
`optimizedLevenshtein` without a cap computes edit distance 0 on a string
against itself. -/
theorem claimC9_theorem : ∀ s : String,
    calculateSimilarity s s = 1 ∧ optimizedLevenshtein s s none = 0 :=
  fun s => ⟨calculateSimilarity_self s, optimizedLevenshtein_self s⟩

/-- A fresh item whose id is not yet in the store. -/
def failItem : RSSItem := { title := "Comunicado B", link := "https://x/z", pubDate := none }

/-- The empty KV store. -/
def emptyStore : KVStore := fun _ => none

/-- An oracle whose fetch succeeds and whose GitHub commit throws. -/
def failOracle : ProcOracle :=
  { freshUuid := "uuid-b", fetchHTML := .ok "<p>h</p>", dateISO := none,
    nowISO := "2025-03-03T00:00:00.000Z", commit := .error "GitHub API error: 500" }

/-- Claim C10: `processItem` is not atomic on publish failure — when the
commit throws after the initial store write, the result is a failure, yet
the store still holds the freshly written record (no `githubSha`,
`githubUrl` or `publicUrl`); nothing on the error path removes it. -/
theorem claimC10_theorem (item : RSSItem) (store : KVStore) (o : ProcOracle)
    (hnew : store (processItemId item.link) = none)
    (hdate : item.pubDate = none)
    (html : String) (hfetch : o.fetchHTML = .ok html)
    (e : String) (hcommit : o.commit = .error e) :
    (processItem item store o).1 = { success := false, error := some e } ∧
    (processItem item store o).2.1 (processItemId item.link) =
      some (.record ⟨processItemId item.link, o.freshUuid, item.title,
        item.link, o.nowISO, html, none, none, none⟩) := by
  simp [processItem, hnew, hdate, hfetch, hcommit, kvPut]

/-- Claim C10 witness: the non-atomicity at a concrete item whose commit
fails after the first store write. -/
theorem claimC10_witness :
    (processItem failItem emptyStore failOracle).1
      = { success := false, error := some "GitHub API error: 500" } ∧
    (processItem failItem emptyStore failOracle).2.1 (processItemId "https://x/z") =
      some (.record ⟨processItemId "https://x/z", "uuid-b", "Comunicado B",
        "https://x/z", "2025-03-03T00:00:00.000Z", "<p>h</p>", none, none, none⟩) :=
  claimC10_theorem failItem emptyStore failOracle rfl rfl "<p>h</p>" rfl
    "GitHub API error: 500" rfl
